import Mathlib

/-!
Verification of the two-page virtualized list (`enyo.List`, src/list/source/List.js).

Part 1 models the paging engine: page-height metrics, position/page address
translation and the two-slot leap-frog `update`.  Part 2 models the swipe
gesture controller: drag / flick / drag-finish / transition-end handlers and
the completion timer.

Modelling conventions:
* JS numbers used for pixel heights and positions are embedded as `Int`
  (all arithmetic on them in the source is integral); gesture measurements
  that go through real division (`dx / width`, animation seconds) are
  embedded as `Rat`.
* DOM reads (measured page height, scroller bounds, row node lookups,
  computed transforms) are external inputs; they appear as explicit
  arguments (`measure`) or as state fields that the code itself wrote
  (`xPos`, `panelWidth`, `boundsHeight`).
* The `while` loop of `positionToPageInfo` need not terminate when a page
  height is non-positive, so its embedding takes a fuel argument and
  returns `Option`; `none` models divergence.
-/

namespace EnyoList

/-- State of the paging engine: the published options, the page-metrics
fields (`pageHeights`, `defaultPageHeight`, `pageCount`, `portSize`), the
scroller measurements and the two live-slot page numbers `p0` / `p1`
(`Option` models the JS `null` they are reset to by `invalidatePages`).
`pageHeights` is the sparse cache (`undefined` entries are `none`);
`boundsHeight` is what `this.getBounds().height` reports. -/
structure PagingState where
  count : Nat
  rowsPerPage : Nat
  bottomUp : Bool
  fixedHeight : Bool
  rowHeight : Int
  pageHeights : Int → Option Int
  defaultPageHeight : Int
  pageCount : Nat
  portSize : Int
  scrollerHeight : Int
  boundsHeight : Int
  p0 : Option Int
  p1 : Option Int
  page : Option Int

/-- `getPageHeight`: `this.pageHeights[inPageNo] || this.defaultPageHeight`.
A cached `0` is falsy in JS, hence also falls back to the default. -/
def getPageHeight (s : PagingState) (inPageNo : Int) : Int :=
  match s.pageHeights inPageNo with
  | none => s.defaultPageHeight
  | some h => if h = 0 then s.defaultPageHeight else h

/-- Sum of `getPageHeight` over the `m` consecutive pages starting at `a`;
this is the accumulation pattern of the loops in `updateMetrics` and
`pageToPosition`. -/
def hsum (s : PagingState) (a : Int) : Nat → Int
  | 0 => 0
  | m + 1 => getPageHeight s a + hsum s (a + 1) m

/-- `Math.ceil(count / rowsPerPage)` for natural arguments (`b > 0`). -/
def ceilDiv (a b : Nat) : Nat := (a + b - 1) / b

/-- `updateMetrics`: recompute `defaultPageHeight = rowsPerPage * (rowHeight || 100)`,
`pageCount = Math.ceil(count / rowsPerPage)` and `portSize` as the sum of
`getPageHeight` over all pages; `adjustPortSize` then re-reads the scroller
bounds (the port height style write is DOM-only). -/
def updateMetrics (s : PagingState) : PagingState :=
  let dph : Int := (s.rowsPerPage : Int) * (if s.rowHeight = 0 then 100 else s.rowHeight)
  let pc := ceilDiv s.count s.rowsPerPage
  let s1 := { s with defaultPageHeight := dph, pageCount := pc }
  { s1 with portSize := hsum s1 0 pc, scrollerHeight := s1.boundsHeight }

/-- Body of the `while (p > 0) { p--; y += this.getPageHeight(p); }` loop of
`pageToPosition`; the loop runs exactly `inPage.toNat` times, which is the
fuel passed in by `pageToPosition`. -/
def pageToPositionAux (s : PagingState) : Int → Nat → Int
  | _, 0 => 0
  | p, n + 1 =>
    if 0 < p then getPageHeight s (p - 1) + pageToPositionAux s (p - 1) n else 0

/-- `pageToPosition(inPage)`: sum of the heights of all lower-numbered pages. -/
def pageToPosition (s : PagingState) (inPage : Int) : Int :=
  pageToPositionAux s inPage inPage.toNat

/-- `calcPos`: identity top-down, `portSize - scrollerHeight - inPos` bottom-up. -/
def calcPos (s : PagingState) (inPos : Int) : Int :=
  if s.bottomUp then s.portSize - s.scrollerHeight - inPos else inPos

/-- The record returned by `positionToPageInfo`: `{no: page, height: h, pos: p + h}`. -/
structure PageInfo where
  no : Int
  height : Int
  pos : Int
deriving DecidableEq

/-- The `while (p >= 0) { page++; h = getPageHeight(page); p -= h; }` loop of
`positionToPageInfo`, with fuel; `none` models divergence (possible in the
source only when a page height is non-positive). -/
def piLoop (s : PagingState) : Nat → Int → Int → Int → Option PageInfo
  | 0, page, rem, h => if rem < 0 then some ⟨page, h, rem + h⟩ else none
  | fuel + 1, page, rem, h =>
    if rem < 0 then some ⟨page, h, rem + h⟩
    else piLoop s fuel (page + 1) (rem - getPageHeight s (page + 1)) (getPageHeight s (page + 1))

/-- `positionToPageInfo(inY)`: starts at `page = -1`, `p = calcPos(inY)`,
`h = defaultPageHeight` and walks pages until the position is consumed. -/
def positionToPageInfo (s : PagingState) (fuel : Nat) (inY : Int) : Option PageInfo :=
  piLoop s fuel (-1) (calcPos s inY) s.defaultPageHeight

/-- `isPageInRange(inPage)`: `inPage == Math.max(0, Math.min(pageCount - 1, inPage))`. -/
def isPageInRange (s : PagingState) (inPage : Int) : Bool :=
  inPage == max 0 (min ((s.pageCount : Int) - 1) inPage)

/-- `generatePage(inPageNo, inTarget)`.  The generator window and
`setContent` are DOM writes; the rendered height read back from the DOM is
supplied as `measuredHeight`.  If `rowHeight` is unset and the measurement
is positive, `rowHeight = Math.floor(height / rowsInPage)` is inferred and
the metrics fully recomputed; then, unless `fixedHeight`, a changed positive
measurement is recorded in the cache and `portSize` adjusted by the delta.
(`Int.fdiv` is `Math.floor` of the real quotient for a positive divisor;
a page with zero rows would divide by zero in the source as well.) -/
def generatePage (s : PagingState) (inPageNo : Int) (measuredHeight : Int) : PagingState :=
  let r : Int := (s.rowsPerPage : Int) * inPageNo
  let rpp : Int := min ((s.count : Int) - r) (s.rowsPerPage : Int)
  let s0 := { s with page := some inPageNo }
  let s1 :=
    if s0.rowHeight = 0 ∧ 0 < measuredHeight then
      updateMetrics { s0 with rowHeight := Int.fdiv measuredHeight rpp }
    else s0
  if s1.fixedHeight = false then
    let h0 := getPageHeight s1 inPageNo
    if h0 ≠ measuredHeight ∧ 0 < measuredHeight then
      { s1 with
        pageHeights := fun q => if q = inPageNo then some measuredHeight else s1.pageHeights q,
        portSize := s1.portSize + (measuredHeight - h0) }
    else s1
  else s1

/-- The leap-frog index
`k = Math.floor((pi.pos + scrollerHeight / 2) / Math.max(pi.height, scrollerHeight) + 1 / 2) + pi.no`,
written over the common denominator `2 * m`; `Int.fdiv` is floor division,
so this is exact whenever `m > 0`. -/
def leapIndex (pi : PageInfo) (scrollerHeight : Int) : Int :=
  let m := max pi.height scrollerHeight
  Int.fdiv (2 * pi.pos + scrollerHeight + m) (2 * m) + pi.no

/-- Slot `page0` target: `(k % 2 === 0) ? k : k - 1` (the even member of
`{k, k-1}`). -/
def evenCandidate (k : Int) : Int := if k % 2 = 0 then k else k - 1

/-- Slot `page1` target: `(k % 2 === 0) ? Math.max(1, k - 1) : k` (the odd
member of `{k, k-1}`, clamped from below at the first odd page). -/
def oddCandidate (k : Int) : Int := if k % 2 = 0 then max 1 (k - 1) else k

/-- Result of one `update(inScrollTop)`: the new state plus which page (if
any) was generated into each slot. -/
structure UpdateOut where
  state : PagingState
  gen0 : Option Int
  gen1 : Option Int

/-- `update(inScrollTop)`: compute the page info and leap-frog index, give
slot `page0` the even candidate of `{k, k-1}` and slot `page1` the odd one
(`Math.max(1, k-1)` when `k` is even), regenerating a slot only when its
target differs from what it holds and is in range; afterwards, if anything
changed and heights are variable, re-read the scroller bounds
(`adjustBottomPage` and `positionPage` are style-only). -/
def update (s : PagingState) (fuel : Nat) (inScrollTop : Int) (measure : Int → Int) :
    Option UpdateOut :=
  match positionToPageInfo s fuel inScrollTop with
  | none => none
  | some pi =>
    let k := leapIndex pi s.scrollerHeight
    let pE := evenCandidate k
    let a :=
      if s.p0 ≠ some pE ∧ isPageInRange s pE = true then
        ({ generatePage s pE (measure pE) with p0 := some pE }, some pE)
      else (s, none)
    let s1 := a.1
    let pO := oddCandidate k
    let b :=
      if s1.p1 ≠ some pO ∧ isPageInRange s1 pO = true then
        ({ generatePage s1 pO (measure pO) with p1 := some pO }, some pO)
      else (s1, none)
    let s2 := b.1
    let s3 :=
      if (a.2.isSome || b.2.isSome) && !s2.fixedHeight then
        { s2 with scrollerHeight := s2.boundsHeight }
      else s2
    some ⟨s3, a.2, b.2⟩


/-! Basic lemmas about the height sums and the address-translation loops. -/

lemma hsum_succ (s : PagingState) (a : Int) (m : Nat) :
    hsum s a (m + 1) = hsum s a m + getPageHeight s (a + m) := by
  induction m generalizing a with
  | zero => simp [hsum]
  | succ m ih =>
    have h1 : hsum s a (m + 1 + 1) = getPageHeight s a + hsum s (a + 1) (m + 1) := rfl
    have h2 : hsum s a (m + 1) = getPageHeight s a + hsum s (a + 1) m := rfl
    rw [h1, ih (a + 1), h2]
    rw [show a + 1 + (m : Int) = a + ((m + 1 : Nat) : Int) by push_cast; ring]
    ring

lemma hsum_nonneg (s : PagingState) (m : Nat) :
    ∀ (a : Int), (∀ q : Int, a ≤ q → q < a + m → 0 < getPageHeight s q) →
      0 ≤ hsum s a m := by
  induction m with
  | zero => intro a _; simp [hsum]
  | succ m ih =>
    intro a hp
    have h1 : 0 < getPageHeight s a := hp a le_rfl (by push_cast; omega)
    have h2 : 0 ≤ hsum s (a + 1) m :=
      ih (a + 1) (fun q hq1 hq2 => hp q (by omega) (by push_cast at hq2 ⊢; omega))
    have h3 : hsum s a (m + 1) = getPageHeight s a + hsum s (a + 1) m := rfl
    omega

lemma pageToPositionAux_eq_hsum (s : PagingState) :
    ∀ (n : Nat) (p : Int), p.toNat = n → pageToPositionAux s p n = hsum s 0 n := by
  intro n
  induction n with
  | zero => intro p _; simp [pageToPositionAux, hsum]
  | succ n ih =>
    intro p hp
    have hp0 : 0 < p := by omega
    have hp1 : (p - 1).toNat = n := by omega
    simp only [pageToPositionAux, if_pos hp0]
    rw [ih (p - 1) hp1, hsum_succ, show p - 1 = ((n : Nat) : Int) by omega, zero_add]
    ring

lemma pageToPosition_eq_hsum (s : PagingState) (p : Int) :
    pageToPosition s p = hsum s 0 p.toNat :=
  pageToPositionAux_eq_hsum s p.toNat p rfl

lemma piLoop_stop (s : PagingState) (fuel : Nat) (page rem h : Int) (hr : rem < 0) :
    piLoop s fuel page rem h = some ⟨page, h, rem + h⟩ := by
  cases fuel with
  | zero =>
    rw [show piLoop s 0 page rem h = if rem < 0 then some ⟨page, h, rem + h⟩ else none from rfl,
      if_pos hr]
  | succ f =>
    rw [show piLoop s (f + 1) page rem h =
          if rem < 0 then some ⟨page, h, rem + h⟩
          else piLoop s f (page + 1) (rem - getPageHeight s (page + 1))
            (getPageHeight s (page + 1)) from rfl,
      if_pos hr]

lemma piLoop_none (s : PagingState) (page rem h : Int) (hr : ¬ rem < 0) :
    piLoop s 0 page rem h = none := by
  rw [show piLoop s 0 page rem h = if rem < 0 then some ⟨page, h, rem + h⟩ else none from rfl,
    if_neg hr]

lemma piLoop_step (s : PagingState) (f : Nat) (page rem h : Int) (hr : ¬ rem < 0) :
    piLoop s (f + 1) page rem h =
      piLoop s f (page + 1) (rem - getPageHeight s (page + 1)) (getPageHeight s (page + 1)) := by
  rw [show piLoop s (f + 1) page rem h =
        if rem < 0 then some ⟨page, h, rem + h⟩
        else piLoop s f (page + 1) (rem - getPageHeight s (page + 1))
          (getPageHeight s (page + 1)) from rfl,
    if_neg hr]

lemma piLoop_exact (s : PagingState) (d : Nat) :
    ∀ (a : Int) (fuel : Nat) (h : Int),
      (∀ q : Int, a ≤ q → q ≤ a + d → 0 < getPageHeight s q) →
      d + 1 ≤ fuel →
      piLoop s fuel (a - 1) (hsum s a d) h =
        some ⟨a + d, getPageHeight s (a + d), 0⟩ := by
  induction d with
  | zero =>
    intro a fuel h hp hf
    obtain ⟨f, rfl⟩ : ∃ f, fuel = f + 1 := ⟨fuel - 1, by omega⟩
    have ha : 0 < getPageHeight s a := hp a le_rfl (by simp)
    have h0 : hsum s a 0 = 0 := rfl
    rw [h0, piLoop_step s f (a - 1) 0 h (by omega), sub_add_cancel,
      piLoop_stop s f a (0 - getPageHeight s a) (getPageHeight s a) (by omega)]
    simp
  | succ d ih =>
    intro a fuel h hp hf
    obtain ⟨f, rfl⟩ : ∃ f, fuel = f + 1 := ⟨fuel - 1, by omega⟩
    have ha : 0 < getPageHeight s a := hp a le_rfl (by push_cast; omega)
    have hnn : 0 ≤ hsum s (a + 1) d :=
      hsum_nonneg s d (a + 1) (fun q h1 h2 => hp q (by omega) (by push_cast at h2 ⊢; omega))
    have hrem : hsum s a (d + 1) = getPageHeight s a + hsum s (a + 1) d := rfl
    rw [hrem, piLoop_step s f (a - 1) _ h (by omega), sub_add_cancel,
      show getPageHeight s a + hsum s (a + 1) d - getPageHeight s a = hsum s (a + 1) d by ring]
    have hih := ih (a + 1) f (getPageHeight s a)
      (fun q h1 h2 => hp q (by omega) (by push_cast at h2 ⊢; omega)) (by omega)
    rw [show (a + 1) - 1 = a by ring] at hih
    rw [hih, show a + 1 + (d : Int) = a + ((d + 1 : Nat) : Int) by push_cast; ring]


lemma piLoop_no_ge (s : PagingState) :
    ∀ (fuel : Nat) (page rem h : Int) (pi : PageInfo),
      piLoop s fuel page rem h = some pi → page ≤ pi.no := by
  intro fuel
  induction fuel with
  | zero =>
    intro page rem h pi hpi
    by_cases hr : rem < 0
    · rw [piLoop_stop s 0 page rem h hr] at hpi
      simp only [Option.some.injEq] at hpi
      subst hpi
      exact le_rfl
    · rw [piLoop_none s page rem h hr] at hpi
      exact absurd hpi (by simp)
  | succ f ih =>
    intro page rem h pi hpi
    by_cases hr : rem < 0
    · rw [piLoop_stop s (f + 1) page rem h hr] at hpi
      simp only [Option.some.injEq] at hpi
      subst hpi
      exact le_rfl
    · rw [piLoop_step s f page rem h hr] at hpi
      have := ih _ _ _ _ hpi
      omega

lemma piLoop_total (s : PagingState) (hp : ∀ q : Int, 0 < getPageHeight s q) :
    ∀ (fuel : Nat) (page rem h : Int), rem.toNat + 1 ≤ fuel →
      ∃ pi, piLoop s fuel page rem h = some pi := by
  intro fuel
  induction fuel with
  | zero => intro page rem h hf; omega
  | succ f ih =>
    intro page rem h hf
    by_cases hr : rem < 0
    · exact ⟨_, piLoop_stop s (f + 1) page rem h hr⟩
    · rw [piLoop_step s f page rem h hr]
      by_cases hr2 : rem - getPageHeight s (page + 1) < 0
      · exact ⟨_, piLoop_stop s f _ _ _ hr2⟩
      · apply ih
        have := hp (page + 1)
        omega

lemma piLoop_no_gt (s : PagingState) (hp : ∀ q : Int, 0 < getPageHeight s q) :
    ∀ (m : Nat) (fuel : Nat) (page rem h : Int) (pi : PageInfo),
      hsum s (page + 1) m ≤ rem → piLoop s fuel page rem h = some pi →
      page + m < pi.no := by
  intro m
  induction m with
  | zero =>
    intro fuel page rem h pi hle hpi
    have hz : hsum s (page + 1) 0 = 0 := rfl
    have hr : ¬ rem < 0 := by omega
    cases fuel with
    | zero =>
      rw [piLoop_none s page rem h hr] at hpi
      exact absurd hpi (by simp)
    | succ f =>
      rw [piLoop_step s f page rem h hr] at hpi
      have := piLoop_no_ge s f _ _ _ _ hpi
      push_cast
      omega
  | succ m ih =>
    intro fuel page rem h pi hle hpi
    have hsplit : hsum s (page + 1) (m + 1) =
        getPageHeight s (page + 1) + hsum s (page + 2) m := by
      have h1 : hsum s (page + 1) (m + 1) =
          getPageHeight s (page + 1) + hsum s ((page + 1) + 1) m := rfl
      rw [h1, show (page + 1) + 1 = page + 2 by ring]
    have hnn : 0 ≤ hsum s (page + 2) m :=
      hsum_nonneg s m (page + 2) (fun q h1 h2 => hp q)
    have hg := hp (page + 1)
    have hr : ¬ rem < 0 := by omega
    cases fuel with
    | zero =>
      rw [piLoop_none s page rem h hr] at hpi
      exact absurd hpi (by simp)
    | succ f =>
      rw [piLoop_step s f page rem h hr] at hpi
      have hrec := ih f (page + 1) (rem - getPageHeight s (page + 1))
        (getPageHeight s (page + 1)) pi
        (by rw [show (page + 1) + 1 = page + 2 by ring]; omega) hpi
      push_cast at hrec ⊢
      omega

/-- C2: for every valid page `p` (all page heights up to `p` positive),
`pageToPosition p` is the sum of `getPageHeight` over pages `0 .. p-1`, and
feeding any scroll input `y` whose logical position (`calcPos y`) equals
`pageToPosition p` back through `positionToPageInfo` returns page number
`p` — covering both the top-down and the bottom-up configuration, since
`calcPos` is the logical-position transform. -/
theorem pageToPosition_positionToPageInfo_roundtrip (s : PagingState) (p y : Int) (fuel : Nat)
    (hp0 : 0 ≤ p) (hp1 : p < (s.pageCount : Int))
    (hpos : ∀ q : Int, 0 ≤ q → q ≤ p → 0 < getPageHeight s q)
    (hy : calcPos s y = pageToPosition s p)
    (hfuel : p.toNat + 1 ≤ fuel) :
    pageToPosition s p = hsum s 0 p.toNat ∧
    ∃ pi, positionToPageInfo s fuel y = some pi ∧ pi.no = p ∧
      pi.height = getPageHeight s p ∧ pi.pos = 0 := by
  have h1 := pageToPosition_eq_hsum s p
  refine ⟨h1, ?_⟩
  have hkey := piLoop_exact s p.toNat 0 fuel s.defaultPageHeight
    (fun q hq1 hq2 => hpos q hq1 (by omega)) (by omega)
  rw [show (0 : Int) - 1 = -1 by ring] at hkey
  rw [show ((0 : Int) + (p.toNat : Int)) = p by omega] at hkey
  unfold positionToPageInfo
  rw [hy, h1, hkey]
  exact ⟨_, rfl, rfl, rfl, rfl⟩

/-- Concrete top-down configuration used by witnesses: three pages with
measured heights 30 and 50 and a default of 100. -/
def sTD : PagingState :=
  { count := 150, rowsPerPage := 50, bottomUp := false, fixedHeight := false,
    rowHeight := 0,
    pageHeights := fun q => if q = 0 then some 30 else if q = 1 then some 50 else none,
    defaultPageHeight := 100, pageCount := 3, portSize := 180,
    scrollerHeight := 40, boundsHeight := 40, p0 := none, p1 := none, page := none }

/-- The same configuration in bottom-up mode. -/
def sBU : PagingState := { sTD with bottomUp := true }

/-- C2 witness: the round trip at page 2, in the top-down configuration
(input 80) and in the bottom-up configuration (input 60, whose logical
position is 180 - 40 - 60 = 80). -/
theorem pageToPosition_positionToPageInfo_roundtrip_witness :
    (∃ pi, positionToPageInfo sTD 3 80 = some pi ∧ pi.no = 2) ∧
    (∃ pi, positionToPageInfo sBU 3 60 = some pi ∧ pi.no = 2) := by
  constructor
  · obtain ⟨-, pi, hpi, hno, -, -⟩ := pageToPosition_positionToPageInfo_roundtrip sTD 2 80 3
      (by decide) (by decide) (fun q hq1 hq2 => by interval_cases q <;> decide)
      (by decide) (by decide)
    exact ⟨pi, hpi, hno⟩
  · obtain ⟨-, pi, hpi, hno, -, -⟩ := pageToPosition_positionToPageInfo_roundtrip sBU 2 60 3
      (by decide) (by decide) (fun q hq1 hq2 => by interval_cases q <;> decide)
      (by decide) (by decide)
    exact ⟨pi, hpi, hno⟩

/-- C9: `positionToPageInfo` is not clamped to the valid page range: a
negative logical position yields page number `-1` with `pos` computed from
`defaultPageHeight`, and a logical position at or beyond the summed page
extent yields a page number greater than `pageCount - 1` (all heights
positive; enough fuel for the loop to finish). -/
theorem positionToPageInfo_unclamped (s : PagingState) (fuel : Nat) (y : Int) :
    (calcPos s y < 0 →
      positionToPageInfo s fuel y =
        some ⟨-1, s.defaultPageHeight, calcPos s y + s.defaultPageHeight⟩) ∧
    ((∀ q : Int, 0 < getPageHeight s q) → hsum s 0 s.pageCount ≤ calcPos s y →
      (calcPos s y).toNat + 1 ≤ fuel →
      ∃ pi, positionToPageInfo s fuel y = some pi ∧ (s.pageCount : Int) - 1 < pi.no) := by
  constructor
  · intro hneg
    unfold positionToPageInfo
    exact piLoop_stop s fuel (-1) _ _ hneg
  · intro hp hext hfuel
    obtain ⟨pi, hpi⟩ := piLoop_total s hp fuel (-1) (calcPos s y) s.defaultPageHeight hfuel
    refine ⟨pi, hpi, ?_⟩
    have hlow := piLoop_no_gt s hp s.pageCount fuel (-1) (calcPos s y) s.defaultPageHeight pi
      (by rw [show (-1 : Int) + 1 = 0 by ring]; exact hext) hpi
    omega

/-- Two-page configuration with no cached measurements, used by the C9 witness. -/
def sW9 : PagingState :=
  { count := 100, rowsPerPage := 50, bottomUp := false, fixedHeight := false,
    rowHeight := 0, pageHeights := fun _ => none, defaultPageHeight := 100, pageCount := 2,
    portSize := 200, scrollerHeight := 40, boundsHeight := 40,
    p0 := none, p1 := none, page := none }

/-- C9 witness: input -5 yields page -1 with pos -5 + 100 = 95; input 250
(beyond the 200px extent of the 2 pages) yields a page number above 1. -/
theorem positionToPageInfo_unclamped_witness :
    positionToPageInfo sW9 1 (-5) = some ⟨-1, 100, 95⟩ ∧
    ∃ pi, positionToPageInfo sW9 251 250 = some pi ∧ (1 : Int) < pi.no := by
  constructor
  · exact (positionToPageInfo_unclamped sW9 1 (-5)).1 (by decide)
  · obtain ⟨pi, hpi, hno⟩ := (positionToPageInfo_unclamped sW9 251 250).2
      (fun q => by show (0 : Int) < 100; norm_num) (by decide) (by decide)
    have hpc : sW9.pageCount = 2 := rfl
    rw [hpc] at hno
    exact ⟨pi, hpi, by push_cast at hno; omega⟩


/-! Lemmas about `generatePage` as the height-measurement recorder. -/

lemma getPageHeight_of_fields (s' s : PagingState) (p v : Int)
    (hph : s'.pageHeights = fun q => if q = p then some v else s.pageHeights q)
    (hd : s'.defaultPageHeight = s.defaultPageHeight) (hv : v ≠ 0) (q : Int) :
    getPageHeight s' q = if q = p then v else getPageHeight s q := by
  unfold getPageHeight
  rw [hph, hd]
  by_cases hq : q = p <;> simp [hq, hv]

lemma hsum_congr (s s' : PagingState) (hg : ∀ q : Int, getPageHeight s' q = getPageHeight s q) :
    ∀ (m : Nat) (a : Int), hsum s' a m = hsum s a m := by
  intro m
  induction m with
  | zero => intro a; rfl
  | succ m ih =>
    intro a
    have h1 : hsum s' a (m + 1) = getPageHeight s' a + hsum s' (a + 1) m := rfl
    have h2 : hsum s a (m + 1) = getPageHeight s a + hsum s (a + 1) m := rfl
    rw [h1, h2, hg a, ih (a + 1)]

lemma hsum_point_update (s s' : PagingState) (p v : Int)
    (hup : ∀ q : Int, getPageHeight s' q = if q = p then v else getPageHeight s q) :
    ∀ (m : Nat) (a : Int),
      hsum s' a m = hsum s a m +
        (if a ≤ p ∧ p < a + (m : Int) then v - getPageHeight s p else 0) := by
  intro m
  induction m with
  | zero =>
    intro a
    have h1 : hsum s' a 0 = 0 := rfl
    have h2 : hsum s a 0 = 0 := rfl
    rw [h1, h2, if_neg (by push_cast; omega)]
    ring
  | succ m ih =>
    intro a
    have h1 : hsum s' a (m + 1) = getPageHeight s' a + hsum s' (a + 1) m := rfl
    have h2 : hsum s a (m + 1) = getPageHeight s a + hsum s (a + 1) m := rfl
    rw [h1, h2, ih (a + 1), hup a]
    by_cases hap : a = p
    · subst hap
      rw [if_pos rfl, if_neg (by push_cast; omega), if_pos (by push_cast; omega)]
      ring
    · rw [if_neg hap]
      by_cases hin : a + 1 ≤ p ∧ p < (a + 1) + (m : Int)
      · rw [if_pos hin, if_pos (by push_cast at hin ⊢; omega)]
        ring
      · rw [if_neg hin, if_neg (by push_cast at hin ⊢; omega)]
        ring

lemma generatePage_measured (s : PagingState) (p h : Int)
    (hrh : s.rowHeight ≠ 0) (hfx : s.fixedHeight = false) :
    generatePage s p h =
      if getPageHeight s p ≠ h ∧ 0 < h then
        { s with
          page := some p,
          pageHeights := fun q => if q = p then some h else s.pageHeights q,
          portSize := s.portSize + (h - getPageHeight s p) }
      else { s with page := some p } := by
  have hinf : ¬ (({ s with page := some p } : PagingState).rowHeight = 0 ∧ 0 < h) := by
    simp [hrh]
  have hfx2 : ({ s with page := some p } : PagingState).fixedHeight = false := hfx
  simp only [generatePage]
  simp only [if_neg hinf, if_pos hfx2]
  rfl

lemma portSize_invariant_store (s : PagingState) (p v : Int) (hv : 0 < v)
    (hp0 : 0 ≤ p) (hp1 : p < (s.pageCount : Int)) (hinv : s.portSize = hsum s 0 s.pageCount) :
    ∀ (s' : PagingState),
      s'.pageHeights = (fun q => if q = p then some v else s.pageHeights q) →
      s'.defaultPageHeight = s.defaultPageHeight →
      s'.pageCount = s.pageCount →
      s'.portSize = s.portSize + (v - getPageHeight s p) →
      s'.portSize = hsum s' 0 s'.pageCount := by
  intro s' h1 h2 h3 h4
  have hup : ∀ q : Int, getPageHeight s' q = if q = p then v else getPageHeight s q :=
    getPageHeight_of_fields s' s p v h1 h2 (by omega)
  rw [h3, h4, hsum_point_update s s' p v hup s.pageCount 0, if_pos (by push_cast; omega)]
  omega

/-- C6 (amended): once `rowHeight` is established (non-zero), recording a
measured height `h` for page `p` via `generatePage` in non-`fixedHeight`
mode is a no-op on the cache and `portSize` when `h` is non-positive or
equal to the currently known height; otherwise it stores `h`, leaves every
other cache entry alone, shifts `portSize` by exactly `h` minus the
previous height, and preserves the invariant that `portSize` is the sum of
`getPageHeight` over pages `0 .. pageCount - 1` (for in-range `p`).  When
`rowHeight` is still 0, `generatePage` instead infers `rowHeight` and fully
recomputes the metrics, so the delta law relative to the pre-call state
fails (see the counterexample). -/
theorem generatePage_recordMeasurement (s : PagingState) (p h : Int)
    (hfx : s.fixedHeight = false) (hrh : s.rowHeight ≠ 0) :
    ((h ≤ 0 ∨ h = getPageHeight s p) →
      (generatePage s p h).pageHeights = s.pageHeights ∧
      (generatePage s p h).portSize = s.portSize) ∧
    ((0 < h ∧ h ≠ getPageHeight s p) →
      (generatePage s p h).pageHeights p = some h ∧
      (∀ q : Int, q ≠ p → (generatePage s p h).pageHeights q = s.pageHeights q) ∧
      (generatePage s p h).portSize = s.portSize + (h - getPageHeight s p)) ∧
    (0 ≤ p → p < (s.pageCount : Int) → s.portSize = hsum s 0 s.pageCount →
      (generatePage s p h).portSize =
        hsum (generatePage s p h) 0 ((generatePage s p h).pageCount)) := by
  have key := generatePage_measured s p h hrh hfx
  refine ⟨?_, ?_, ?_⟩
  · intro hno
    rw [key, if_neg (by rintro ⟨hne, hpos⟩; rcases hno with h1 | h1; omega; exact hne h1.symm)]
    exact ⟨rfl, rfl⟩
  · rintro ⟨hpos, hne⟩
    rw [key, if_pos ⟨fun he => hne he.symm, hpos⟩]
    exact ⟨by simp, fun q hq => by simp [hq], rfl⟩
  · intro hp0 hp1 hinv
    by_cases hc : getPageHeight s p ≠ h ∧ 0 < h
    · rw [key, if_pos hc]
      exact portSize_invariant_store s p h hc.2 hp0 hp1 hinv _ rfl rfl rfl rfl
    · rw [key, if_neg hc]
      have hg : ∀ q : Int, getPageHeight ({ s with page := some p } : PagingState) q =
          getPageHeight s q := fun q => rfl
      have hpc : ({ s with page := some p } : PagingState).pageCount = s.pageCount := rfl
      rw [hpc, hsum_congr s ({ s with page := some p }) hg s.pageCount 0]
      exact hinv

/-- Fresh first-measurement configuration for the C6 counterexample:
`rowHeight` not yet inferred, two one-row pages, default height 100. -/
def sC6 : PagingState :=
  { count := 2, rowsPerPage := 1, bottomUp := false, fixedHeight := false,
    rowHeight := 0, pageHeights := fun _ => none, defaultPageHeight := 100, pageCount := 2,
    portSize := 200, scrollerHeight := 50, boundsHeight := 50,
    p0 := none, p1 := none, page := none }

/-- C6 counterexample: on the first measurement (`rowHeight = 0`),
recording height 5 for page 0 (previous known height 100, so the claim
demands storing 5 and `portSize = 200 + (5 - 100) = 105`) instead infers
`rowHeight`, recomputes the metrics to `portSize = 10`, and leaves the
cache empty. -/
theorem generatePage_recordMeasurement_cex :
    (generatePage sC6 0 5).portSize = 10 ∧
    (generatePage sC6 0 5).pageHeights 0 = none ∧
    getPageHeight sC6 0 = 100 ∧
    ¬ ((generatePage sC6 0 5).portSize = sC6.portSize + (5 - getPageHeight sC6 0) ∧
       (generatePage sC6 0 5).pageHeights 0 = some 5) := by decide

/-- Calibrated variant (`rowHeight = 100`) used by the C6 witness. -/
def sC6b : PagingState := { sC6 with rowHeight := 100 }

/-- C6 witness: with `rowHeight` established, recording 150 for page 0
stores it and moves `portSize` from 200 to 250 = 200 + (150 - 100),
re-establishing the sum invariant. -/
theorem generatePage_recordMeasurement_witness :
    (generatePage sC6b 0 150).pageHeights 0 = some 150 ∧
    (generatePage sC6b 0 150).portSize = 250 ∧
    (generatePage sC6b 0 150).portSize = hsum (generatePage sC6b 0 150) 0 2 := by
  obtain ⟨h1, h2, h3⟩ := generatePage_recordMeasurement sC6b 0 150 rfl (by decide)
  obtain ⟨ha, hb, hc⟩ := h2 ⟨by decide, by decide⟩
  refine ⟨ha, ?_, ?_⟩
  · rw [hc]; decide
  · exact h3 (by decide) (by decide) (by decide)


/-! Lemmas for the leap-frog `update`. -/

lemma generatePage_preserves (s : PagingState) (p h : Int)
    (hpc : s.pageCount = ceilDiv s.count s.rowsPerPage) :
    (generatePage s p h).pageCount = s.pageCount ∧
    (generatePage s p h).p0 = s.p0 ∧
    (generatePage s p h).p1 = s.p1 ∧
    (generatePage s p h).count = s.count ∧
    (generatePage s p h).rowsPerPage = s.rowsPerPage ∧
    (generatePage s p h).fixedHeight = s.fixedHeight ∧
    (generatePage s p h).boundsHeight = s.boundsHeight := by
  simp only [generatePage, updateMetrics]
  split_ifs <;>
    first
      | exact ⟨rfl, rfl, rfl, rfl, rfl, rfl, rfl⟩
      | exact ⟨hpc.symm, rfl, rfl, rfl, rfl, rfl, rfl⟩

lemma isPageInRange_congr (s s' : PagingState) (hpc : s'.pageCount = s.pageCount) (q : Int) :
    isPageInRange s' q = isPageInRange s q := by
  unfold isPageInRange
  rw [hpc]

lemma evenCandidate_emod (k : Int) : evenCandidate k % 2 = 0 := by
  unfold evenCandidate
  split_ifs with h <;> omega

lemma oddCandidate_emod (k : Int) : oddCandidate k % 2 = 1 := by
  unfold oddCandidate
  split_ifs with h
  · rcases le_total (k - 1) 1 with h1 | h1
    · rw [max_eq_left h1]
      decide
    · rw [max_eq_right h1]
      omega
  · omega

lemma p0_of_scroll_if (c : Prop) [Decidable c] (x : PagingState) (v : Int) :
    (if c then { x with scrollerHeight := v } else x).p0 = x.p0 := by
  split <;> rfl

lemma p1_of_scroll_if (c : Prop) [Decidable c] (x : PagingState) (v : Int) :
    (if c then { x with scrollerHeight := v } else x).p1 = x.p1 := by
  split <;> rfl

/-- C7: on every `update(pos)` whose page-info loop terminates (result
`pi`, leap-frog index `k = leapIndex pi scrollerHeight`), slot `page0`
targets the even candidate of `{k, k-1}` and slot `page1` the complementary
odd candidate (clamped from below at the first odd page near page 0), and a
slot is regenerated — and its held page number changed — exactly when its
target differs from what it holds and the target is within
`[0, pageCount-1]` (`isPageInRange`).  `pageCount` is assumed consistent
with `count`/`rowsPerPage`, as `updateMetrics` maintains it. -/
theorem update_slot_targets (s : PagingState) (fuel : Nat) (pos : Int) (measure : Int → Int)
    (pi : PageInfo) (hpi : positionToPageInfo s fuel pos = some pi)
    (hpc : s.pageCount = ceilDiv s.count s.rowsPerPage) :
    ∃ out, update s fuel pos measure = some out ∧
      (evenCandidate (leapIndex pi s.scrollerHeight)) % 2 = 0 ∧
      (oddCandidate (leapIndex pi s.scrollerHeight)) % 2 = 1 ∧
      out.gen0 = (if s.p0 ≠ some (evenCandidate (leapIndex pi s.scrollerHeight)) ∧
          isPageInRange s (evenCandidate (leapIndex pi s.scrollerHeight)) = true
        then some (evenCandidate (leapIndex pi s.scrollerHeight)) else none) ∧
      out.state.p0 = (if s.p0 ≠ some (evenCandidate (leapIndex pi s.scrollerHeight)) ∧
          isPageInRange s (evenCandidate (leapIndex pi s.scrollerHeight)) = true
        then some (evenCandidate (leapIndex pi s.scrollerHeight)) else s.p0) ∧
      out.gen1 = (if s.p1 ≠ some (oddCandidate (leapIndex pi s.scrollerHeight)) ∧
          isPageInRange s (oddCandidate (leapIndex pi s.scrollerHeight)) = true
        then some (oddCandidate (leapIndex pi s.scrollerHeight)) else none) ∧
      out.state.p1 = (if s.p1 ≠ some (oddCandidate (leapIndex pi s.scrollerHeight)) ∧
          isPageInRange s (oddCandidate (leapIndex pi s.scrollerHeight)) = true
        then some (oddCandidate (leapIndex pi s.scrollerHeight)) else s.p1) := by
  simp only [update, hpi]
  set k := leapIndex pi s.scrollerHeight with hkdef
  set pE := evenCandidate k with hpEdef
  set pO := oddCandidate k with hpOdef
  by_cases hc0 : s.p0 ≠ some pE ∧ isPageInRange s pE = true
  · simp only [if_pos hc0]
    have hpre := generatePage_preserves s pE (measure pE) hpc
    have hir : ∀ q : Int,
        isPageInRange ({ generatePage s pE (measure pE) with p0 := some pE } : PagingState) q =
          isPageInRange s q :=
      isPageInRange_congr s ({ generatePage s pE (measure pE) with p0 := some pE }) hpre.1
    by_cases hc1 : s.p1 ≠ some pO ∧ isPageInRange s pO = true
    · have hc1g : (generatePage s pE (measure pE)).p1 ≠ some pO ∧
          isPageInRange ({ generatePage s pE (measure pE) with p0 := some pE } : PagingState)
            pO = true := by
        constructor
        · rw [hpre.2.2.1]
          exact hc1.1
        · rw [hir pO]
          exact hc1.2
      simp only [if_pos hc1g, if_pos hc1]
      have hpc1 : ({ generatePage s pE (measure pE) with p0 := some pE } : PagingState).pageCount =
          ceilDiv ({ generatePage s pE (measure pE) with p0 := some pE } : PagingState).count
            ({ generatePage s pE (measure pE) with p0 := some pE } : PagingState).rowsPerPage := by
        show (generatePage s pE (measure pE)).pageCount =
          ceilDiv (generatePage s pE (measure pE)).count (generatePage s pE (measure pE)).rowsPerPage
        rw [hpre.1, hpre.2.2.2.1, hpre.2.2.2.2.1]
        exact hpc
      have hpre2 := generatePage_preserves
        ({ generatePage s pE (measure pE) with p0 := some pE }) pO (measure pO) hpc1
      have hp0s2 : (generatePage ({ generatePage s pE (measure pE) with p0 := some pE })
          pO (measure pO)).p0 = some pE := by
        rw [hpre2.2.1]
      refine ⟨_, rfl, evenCandidate_emod k, oddCandidate_emod k, rfl, ?_, rfl, ?_⟩
      · split <;> exact hp0s2
      · split <;> rfl
    · have hc1g : ¬ ((generatePage s pE (measure pE)).p1 ≠ some pO ∧
          isPageInRange ({ generatePage s pE (measure pE) with p0 := some pE } : PagingState)
            pO = true) := by
        rw [hpre.2.2.1, hir pO]
        exact hc1
      simp only [if_neg hc1g, if_neg hc1]
      refine ⟨_, rfl, evenCandidate_emod k, oddCandidate_emod k, rfl, ?_, rfl, ?_⟩
      · split <;> rfl
      · split <;> exact hpre.2.2.1
  · simp only [if_neg hc0]
    by_cases hc1 : s.p1 ≠ some pO ∧ isPageInRange s pO = true
    · simp only [if_pos hc1]
      have hpre2 := generatePage_preserves s pO (measure pO) hpc
      refine ⟨_, rfl, evenCandidate_emod k, oddCandidate_emod k, rfl, ?_, rfl, ?_⟩
      · split <;> exact hpre2.2.1
      · split <;> rfl
    · simp only [if_neg hc1]
      refine ⟨_, rfl, evenCandidate_emod k, oddCandidate_emod k, rfl, ?_, rfl, ?_⟩
      · split <;> rfl
      · split <;> rfl

/-- Consistent three-page state used by the C7 witness. -/
def sW7 : PagingState :=
  { count := 150, rowsPerPage := 50, bottomUp := false, fixedHeight := false,
    rowHeight := 2, pageHeights := fun _ => none, defaultPageHeight := 100, pageCount := 3,
    portSize := 300, scrollerHeight := 100, boundsHeight := 100,
    p0 := none, p1 := none, page := none }

/-- C7 witness: at position 0 the leap-frog index is 1, so slot `page0`
takes page 0 and slot `page1` takes page 1; both slots start empty, so
both are regenerated. -/
theorem update_slot_targets_witness :
    ∃ out, update sW7 2 0 (fun _ => 100) = some out ∧
      out.gen0 = some 0 ∧ out.state.p0 = some 0 ∧
      out.gen1 = some 1 ∧ out.state.p1 = some 1 := by
  obtain ⟨out, hu, hpar0, hpar1, hg0, hs0, hg1, hs1⟩ :=
    update_slot_targets sW7 2 0 (fun _ => 100) ⟨0, 100, 0⟩ (by decide) (by decide)
  refine ⟨out, hu, ?_, ?_, ?_, ?_⟩
  · rw [hg0]; decide
  · rw [hs0]; decide
  · rw [hg1]; decide
  · rw [hs1]; decide


/-! The `count = 0` edge case. -/

lemma ceilDiv_zero (b : Nat) : ceilDiv 0 b = 0 := by
  unfold ceilDiv
  cases b with
  | zero => rfl
  | succ n =>
    rw [show 0 + (n + 1) - 1 = n from by omega]
    exact Nat.div_eq_of_lt (by omega)

lemma isPageInRange_count_zero (s : PagingState) (hpc : s.pageCount = 0) (q : Int) :
    isPageInRange s q = true ↔ q = 0 := by
  unfold isPageInRange
  rw [hpc]
  simp only [Nat.cast_zero, beq_iff_eq, zero_sub]
  constructor
  · intro h
    rcases le_total (-1 : Int) q with h1 | h1
    · rw [min_eq_left h1] at h
      simpa using h
    · rw [min_eq_right h1, max_eq_left (by omega)] at h
      exact h
  · intro h
    subst h
    rcases le_total (-1 : Int) (0 : Int) with h1 | h1
    · rw [min_eq_left h1]
      decide
    · rw [min_eq_right h1]
      decide

lemma oddCandidate_ne_zero (k : Int) : oddCandidate k ≠ 0 := by
  unfold oddCandidate
  split_ifs with h
  · have h1 : (1 : Int) ≤ max 1 (k - 1) := le_max_left 1 (k - 1)
    omega
  · omega

/-- C8 (amended): when `count = 0` (and thus `pageCount = 0`), `update`
never populates slot `page1` — the odd slot target is never page 0, the
only page `isPageInRange` accepts — but slot `page0` can still be
regenerated with the empty page 0, because `isPageInRange 0` is `true`
even when `pageCount = 0`. -/
theorem update_count_zero (s : PagingState) (fuel : Nat) (pos : Int) (measure : Int → Int)
    (hc : s.count = 0) (hpc : s.pageCount = 0) (out : UpdateOut)
    (hout : update s fuel pos measure = some out) :
    out.gen1 = none ∧ out.state.p1 = s.p1 ∧ (out.gen0 = none ∨ out.gen0 = some 0) := by
  cases hpi : positionToPageInfo s fuel pos with
  | none =>
    simp only [update, hpi] at hout
    exact absurd hout (by simp)
  | some pi =>
    simp only [update, hpi] at hout
    set k := leapIndex pi s.scrollerHeight with hk
    set pE := evenCandidate k with hpE
    set pO := oddCandidate k with hpO
    have hirs := isPageInRange_count_zero s hpc
    have hpOne : pO ≠ 0 := oddCandidate_ne_zero k
    by_cases hc0 : s.p0 ≠ some pE ∧ isPageInRange s pE = true
    · simp only [if_pos hc0] at hout
      have hpre := generatePage_preserves s pE (measure pE) (by rw [hpc, hc, ceilDiv_zero])
      have hirg : ∀ q : Int,
          isPageInRange ({ generatePage s pE (measure pE) with p0 := some pE } : PagingState) q =
            isPageInRange s q :=
        isPageInRange_congr s ({ generatePage s pE (measure pE) with p0 := some pE }) hpre.1
      have hc1g : ¬ ((generatePage s pE (measure pE)).p1 ≠ some pO ∧
          isPageInRange ({ generatePage s pE (measure pE) with p0 := some pE } : PagingState)
            pO = true) := by
        rintro ⟨-, h2⟩
        rw [hirg pO] at h2
        exact hpOne ((hirs pO).mp h2)
      simp only [if_neg hc1g] at hout
      have hpE0 : pE = 0 := (hirs pE).mp hc0.2
      simp only [Option.some.injEq] at hout
      subst hout
      refine ⟨rfl, ?_, Or.inr ?_⟩
      · split <;> exact hpre.2.2.1
      · rw [hpE0]
    · simp only [if_neg hc0] at hout
      have hc1g : ¬ (s.p1 ≠ some pO ∧ isPageInRange s pO = true) := by
        rintro ⟨-, h2⟩
        exact hpOne ((hirs pO).mp h2)
      simp only [if_neg hc1g] at hout
      simp only [Option.some.injEq] at hout
      subst hout
      refine ⟨rfl, ?_, Or.inl rfl⟩
      split <;> rfl

/-- Empty-list state for the C8 counterexample and witness: `count = 0`,
`pageCount = 0`, fresh metrics, empty slots. -/
def sC8 : PagingState :=
  { count := 0, rowsPerPage := 50, bottomUp := false, fixedHeight := false,
    rowHeight := 0, pageHeights := fun _ => none, defaultPageHeight := 5000, pageCount := 0,
    portSize := 0, scrollerHeight := 500, boundsHeight := 500,
    p0 := none, p1 := none, page := none }

/-- C8 counterexample: with `count = 0` the claim says `update` never
populates a slot, yet `update(0)` regenerates slot `page0` with (empty)
page 0, because `isPageInRange 0` is `true` even when `pageCount = 0`. -/
theorem update_count_zero_cex :
    sC8.count = 0 ∧ sC8.pageCount = 0 ∧ isPageInRange sC8 0 = true ∧
    (update sC8 2 0 (fun _ => 0)).map (fun o => o.state.p0) = some (some 0) ∧
    (update sC8 2 0 (fun _ => 0)).map (fun o => o.gen0) = some (some 0) := by decide

/-- C8 witness: on the same empty list, `update(0)` does leave slot
`page1` untouched and generates nothing into it. -/
theorem update_count_zero_witness :
    (update sC8 2 0 (fun _ => 0)).map (fun o => o.gen1) = some none ∧
    (update sC8 2 0 (fun _ => 0)).map (fun o => o.state.p1) = some none := by
  cases hu : update sC8 2 0 (fun _ => 0) with
  | none =>
    have hs : (update sC8 2 0 (fun _ => 0)).isSome = true := by decide
    rw [hu] at hs
    exact absurd hs (by decide)
  | some out =>
    have h := update_count_zero sC8 2 0 (fun _ => 0) rfl rfl out hu
    constructor
    · simp [h.1]
    · simp [h.2.1, sC8]


/-!
Part 2: the swipe gesture controller.  Horizontal measurements (`dx`,
velocities, the panel width and its current `translate3d` x, animation
seconds) are `Rat`, the exact embedding of the source's real arithmetic on
decimal literals.  The panel transform (`xPos`), its computed width
(`panelWidth`) and visibility (`showing`) are state fields because the
controller reads back exactly what it wrote.  `setTimeout` is modelled by
`liveTimers` (identities of armed, not-yet-fired, not-yet-cancelled
timers), a fresh-id counter `nextTimerId`, and `completeSwipeTimeout`, the
single stored handle.  Emitted events are collected in a `List Eff`; the
declared `onSwipe` and `onSwipeDrag` events have constructors here but no
handler ever produces them, matching the source, which never fires them.
-/

/-- Side an action panel originates from (`persistentItemOrigin`). -/
inductive Origin where
  | left
  | right
deriving DecidableEq

/-- A drag/flick gesture event as delivered to the handlers. -/
structure DragEvt where
  index : Option Int
  xDirection : Int
  dx : Rat
  ddx : Rat
  xVelocity : Rat
  yVelocity : Rat
  vertical : Bool
deriving DecidableEq

/-- Events the controller can bubble. -/
inductive Eff where
  | setupSwipeItem (index : Option Int) (xDirection : Int)
  | swipeEvt
  | swipeDragEvt
  | swipeCompleteEvt (index : Option Int) (xDirection : Option Int)
deriving DecidableEq

/-- Swipe controller state (instance fields of the list). -/
structure SwipeState where
  enableSwipe : Bool
  persistSwipeableItem : Bool
  hasSwipeables : Bool
  swipeIndex : Option Int
  swipeDirection : Option Int
  persistentItemVisisble : Bool
  persistentItemOrigin : Option Origin
  swipeComplete : Bool
  flicked : Bool
  liveTimers : List Nat
  nextTimerId : Nat
  completeSwipeTimeout : Option Nat
  showing : Bool
  xPos : Rat
  panelWidth : Rat
  transitionSecs : Option Rat
  rowNodeFound : Bool
deriving DecidableEq

/-- `completeSwipeDelayMS: 150`. -/
def completeSwipeDelayMS : Nat := 150

/-- `normalSwipeSpeed: 0.2` (as the exact rational 2/10). -/
def normalSwipeSpeed : Rat := 2/10

/-- `fastSwipeSpeed: 0.1` (as the exact rational 1/10). -/
def fastSwipeSpeed : Rat := 1/10

/-- `percentageDraggedThreshold: 0.2` (as the exact rational 2/10). -/
def percentageDraggedThreshold : Rat := 2/10

def setSwipeDirection (s : SwipeState) (xDirection : Option Int) : SwipeState :=
  { s with swipeDirection := xDirection }

def setFlicked (s : SwipeState) (flicked : Bool) : SwipeState :=
  { s with flicked := flicked }

def wasFlicked (s : SwipeState) : Bool := s.flicked

def setSwipeComplete (s : SwipeState) (complete : Bool) : SwipeState :=
  { s with swipeComplete := complete }

/-- `swipeIndexChanged(index)`: true when no row owns the panel yet, false
for an undefined index, else whether the index moved. -/
def swipeIndexChanged (s : SwipeState) (index : Option Int) : Bool :=
  match s.swipeIndex, index with
  | none, _ => true
  | some _, none => false
  | some j, some i => i != j

def setSwipeIndex (s : SwipeState) (index : Option Int) : SwipeState :=
  { s with swipeIndex := match index with | none => s.swipeIndex | some i => some i }

/-- `calcPercentageDragged(dx) = Math.abs(dx / width)` with the panel's
computed width. -/
def calcPercentageDragged (s : SwipeState) (dx : Rat) : Rat :=
  |dx / s.panelWidth|

/-- `swipeItem(x, secs)`: set the transition duration (`none` models the
`undefined` `normalSwipeSpeedSecs` field) and the transform. -/
def swipeItem (s : SwipeState) (x : Rat) (secs : Option Rat) : SwipeState :=
  { s with transitionSecs := secs, xPos := x }

def dragSwipeableComponents (s : SwipeState) (x : Rat) : SwipeState :=
  { s with xPos := x }

/-- `calcNewDragPosition(dx)`: move relative to the current transform,
clamped at the panel's own width on its entry side. -/
def calcNewDragPosition (s : SwipeState) (dx : Rat) : Rat :=
  let xPos := s.xPos
  let xlimit := if s.swipeDirection = some 1 then -s.panelWidth else s.panelWidth
  if s.swipeDirection = some 1 then
    (if xPos + dx < xlimit then xlimit else xPos + dx)
  else
    (if xPos + dx > xlimit then xlimit else xPos + dx)

/-- `setPersistentItemOrigin(xDirection)`: direction 1 means the panel came
from the left. -/
def setPersistentItemOrigin (s : SwipeState) (xDirection : Int) : SwipeState :=
  { s with persistentItemOrigin := some (if xDirection = 1 then Origin.left else Origin.right) }

/-- `positionSwipeableContainer`: no-op when `fetchRowNode` finds nothing;
otherwise park the panel one width off-screen on the entry side (the
top/height/width style writes are DOM-only). -/
def positionSwipeableContainer (s : SwipeState) (xDirection : Int) : SwipeState :=
  if s.rowNodeFound then
    { s with xPos := if xDirection = 1 then -s.panelWidth else s.panelWidth }
  else s

/-- `startSwipe(e)`: position and reveal the panel, record the origin side,
bubble `onSetupSwipeItem`. -/
def startSwipe (s : SwipeState) (e : DragEvt) : SwipeState × List Eff :=
  let s1 := positionSwipeableContainer s e.xDirection
  let s2 := { s1 with showing := true }
  let s3 := setPersistentItemOrigin s2 e.xDirection
  (s3, [Eff.setupSwipeItem e.index e.xDirection])

/-- `bounceItem(e)`: animate back to 0 unless already there (the duration
`normalSwipeSpeedSecs` is an undefined field in the source, hence `none`). -/
def bounceItem (s : SwipeState) : SwipeState :=
  if s.xPos ≠ 0 then swipeItem s 0 none else s

/-- `slideAwayItem()`: slide one width toward the origin side, drop the
persistent flag and the `persistSwipeableItem` published option. -/
def slideAwayItem (s : SwipeState) : SwipeState :=
  let x := if s.persistentItemOrigin = some Origin.right then s.panelWidth else -s.panelWidth
  { s with
    transitionSecs := none,
    xPos := x,
    persistentItemVisisble := false,
    persistSwipeableItem := false }

def resetSwipeableTransitionTime (s : SwipeState) : SwipeState :=
  { s with transitionSecs := some 0 }

/-- `clearSwipeables()`: hide the panel, drop the persistent flag and the
`persistSwipeableItem` published option. -/
def clearSwipeables (s : SwipeState) : SwipeState :=
  { s with
    showing := false,
    persistentItemVisisble := false,
    persistSwipeableItem := false }

/-- `dragPersistentItem(e)`: clamp at 0 so the open panel cannot be pushed
past its open position against its origin side. -/
def dragPersistentItem (s : SwipeState) (e : DragEvt) : SwipeState :=
  let xPos : Rat := 0
  let x := if s.persistentItemOrigin = some Origin.right
    then max xPos (xPos + e.dx) else min xPos (xPos + e.dx)
  { s with xPos := x }

/-- `dragFinishPersistentItem(e)`: slide away only when the sign of `dx`
matches the origin side and more than 20% of the width was dragged. -/
def dragFinishPersistentItem (s : SwipeState) (e : DragEvt) : SwipeState :=
  let didComplete := calcPercentageDragged s e.dx > (2/10 : Rat)
  let dir : Option Origin :=
    if e.dx > 0 then some Origin.right else if e.dx < 0 then some Origin.left else none
  if s.persistentItemOrigin = dir then
    (if didComplete then slideAwayItem s else bounceItem s)
  else bounceItem s

/-- `flickPersistentItem(e)`: positive velocity bounces a left-origin panel
and slides away a right-origin one; negative velocity symmetrically. -/
def flickPersistentItem (s : SwipeState) (e : DragEvt) : SwipeState :=
  if e.xVelocity > 0 then
    (if s.persistentItemOrigin = some Origin.left then bounceItem s else slideAwayItem s)
  else if e.xVelocity < 0 then
    (if s.persistentItemOrigin = some Origin.right then bounceItem s else slideAwayItem s)
  else s

/-- `swipe(e, speed)`: mark the swipe complete and animate to 0.  No event
is bubbled here. -/
def swipe (s : SwipeState) (e : DragEvt) (speed : Rat) : SwipeState × List Eff :=
  (swipeItem (setSwipeComplete s true) 0 (some speed), [])

/-- `backOutSwipe(e)`: animate back to the hidden position (one width on
the entry side) at 0.1s. -/
def backOutSwipe (s : SwipeState) (e : DragEvt) : SwipeState :=
  let x := if s.swipeDirection = some 1 then -s.panelWidth else s.panelWidth
  swipeItem s x (some (1/10))

/-- `completeSwipe(e)`: clear the stored timer if any, restore a zero
transition, then either hide the panel (bubbling `onSwipeComplete` only if
the swipe had completed) or, when persisting, mark the panel persistent. -/
def completeSwipe (s : SwipeState) (e : DragEvt) : SwipeState × List Eff :=
  let s1 := match s.completeSwipeTimeout with
    | some t =>
      { s with
        liveTimers := s.liveTimers.erase t,
        completeSwipeTimeout := none }
    | none => s
  let eIndex := match e.index with | none => s1.swipeIndex | some i => some i
  let eDir := s1.swipeDirection
  let s2 := resetSwipeableTransitionTime (setSwipeDirection s1 none)
  if s2.persistSwipeableItem = false then
    let s3 := { s2 with showing := false }
    if s3.swipeComplete then (s3, [Eff.swipeCompleteEvt eIndex eDir]) else (s3, [])
  else
    ({ s2 with persistentItemVisisble := true }, [])

/-- `transitionComplete(e)`: filtered to the swipeable element; arms a
fresh delayed timer and stores its handle, overwriting (without
cancelling) any previous one. -/
def transitionComplete (s : SwipeState) (originatorIsSwipeable : Bool) : SwipeState :=
  if originatorIsSwipeable = false then s
  else
    { s with
      liveTimers := s.liveTimers ++ [s.nextTimerId],
      completeSwipeTimeout := some s.nextTimerId,
      nextTimerId := s.nextTimerId + 1 }

/-- The scheduler firing a live timer: the timer leaves the live set and
its callback runs `completeSwipe` with the captured event. -/
def timerFire (s : SwipeState) (t : Nat) (e : DragEvt) : SwipeState × List Eff :=
  if t ∈ s.liveTimers then
    completeSwipe { s with liveTimers := s.liveTimers.erase t } e
  else (s, [])

def hasSwipeableComponents (s : SwipeState) : Bool := s.hasSwipeables

/-- `dragstart(e)`: ignore non-swipeable or vertical drags; record the
direction; force a pending completion; reset the flicked/complete flags;
switch rows (hiding swipeables) if needed; begin the swipe sequence unless
a persistent item is showing. -/
def dragstart (s : SwipeState) (e : DragEvt) : SwipeState × List Eff :=
  if hasSwipeableComponents s = false ∨ e.vertical = true then (s, [])
  else
    let s1 := setSwipeDirection s (some e.xDirection)
    let a := match s1.completeSwipeTimeout with
      | some _ => completeSwipe s1 e
      | none => (s1, [])
    let s2 := setSwipeComplete (setFlicked a.1 false) false
    let s3 := if swipeIndexChanged s2 e.index = true
      then setSwipeIndex (clearSwipeables s2) e.index else s2
    let b := if s3.persistentItemVisisble = false then startSwipe s3 e else (s3, [])
    (b.1, a.2 ++ b.2)

/-- `drag(e)`: persistent panels get the clamped-at-zero translation,
otherwise the edge-clamped translation from the current transform. -/
def drag (s : SwipeState) (e : DragEvt) : SwipeState × List Eff :=
  if s.enableSwipe = false then (s, [])
  else if s.persistentItemVisisble = true then (dragPersistentItem s e, [])
  else (dragSwipeableComponents s (calcNewDragPosition s e.ddx), [])

/-- `flick(e)`: only when horizontal velocity dominates; sets the flicked
flag; persistent panels are bounced or slid away, otherwise the swipe is
force-completed at normal speed. -/
def flick (s : SwipeState) (e : DragEvt) : SwipeState × List Eff :=
  if s.enableSwipe = false then (s, [])
  else if |e.xVelocity| < |e.yVelocity| then (s, [])
  else
    let s1 := setFlicked s true
    if s1.persistentItemVisisble = true then (flickPersistentItem s1 e, [])
    else swipe s1 e normalSwipeSpeed

/-- `dragfinish(e)`: suppressed after a flick; persistent panels settle via
`dragFinishPersistentItem`; otherwise force-complete fast above the 20%
threshold, else back out. -/
def dragfinish (s : SwipeState) (e : DragEvt) : SwipeState × List Eff :=
  if s.enableSwipe = false then (s, [])
  else if wasFlicked s = true then (s, [])
  else if s.persistentItemVisisble = true then (dragFinishPersistentItem s e, [])
  else if calcPercentageDragged s e.dx > percentageDraggedThreshold then
    swipe s e fastSwipeSpeed
  else (backOutSwipe s e, [])


/-! Lemmas and claim theorems for the swipe controller. -/

lemma not_mem_erase_self (t : Nat) : ∀ (l : List Nat), l.Nodup → t ∉ l.erase t := by
  intro l
  induction l with
  | nil => intro _ h; simp at h
  | cons a l ih =>
    intro hnd hmem
    by_cases hat : a = t
    · subst hat
      rw [List.erase_cons_head] at hmem
      exact (List.nodup_cons.mp hnd).1 hmem
    · rw [List.erase_cons_tail (by simp [hat])] at hmem
      rcases List.mem_cons.mp hmem with h1 | h1
      · exact hat h1.symm
      · exact ih (List.nodup_cons.mp hnd).2 h1

lemma slideAwayItem_spec (s : SwipeState) :
    (slideAwayItem s).persistentItemVisisble = false ∧
    (slideAwayItem s).persistSwipeableItem = false ∧
    (slideAwayItem s).xPos =
      (if s.persistentItemOrigin = some Origin.right then s.panelWidth else -s.panelWidth) ∧
    (slideAwayItem s).showing = s.showing :=
  ⟨rfl, rfl, rfl, rfl⟩

lemma bounceItem_spec (s : SwipeState) :
    (bounceItem s).xPos = 0 ∧
    (bounceItem s).persistentItemVisisble = s.persistentItemVisisble ∧
    (bounceItem s).persistSwipeableItem = s.persistSwipeableItem := by
  unfold bounceItem
  by_cases h : s.xPos ≠ 0
  · rw [if_pos h]
    exact ⟨rfl, rfl, rfl⟩
  · rw [if_neg h]
    push_neg at h
    exact ⟨h, rfl, rfl⟩

lemma completeSwipe_timers (s : SwipeState) (e : DragEvt) (t : Nat)
    (ht : s.completeSwipeTimeout = some t) :
    (completeSwipe s e).1.liveTimers = s.liveTimers.erase t ∧
    (completeSwipe s e).1.completeSwipeTimeout = none := by
  simp only [completeSwipe, ht, resetSwipeableTransitionTime, setSwipeDirection]
  split_ifs <;> exact ⟨rfl, rfl⟩

lemma dragstart_timers (s : SwipeState) (e : DragEvt) (t : Nat)
    (hsw : s.hasSwipeables = true) (hv : e.vertical = false)
    (ht : s.completeSwipeTimeout = some t) :
    (dragstart s e).1.liveTimers = s.liveTimers.erase t := by
  have g1 : ¬ (hasSwipeableComponents s = false ∨ e.vertical = true) := by
    simp [hasSwipeableComponents, hsw, hv]
  simp only [dragstart, if_neg g1, setSwipeDirection, completeSwipe, ht,
    resetSwipeableTransitionTime, setFlicked, setSwipeComplete, setSwipeIndex,
    clearSwipeables, startSwipe, positionSwipeableContainer, setPersistentItemOrigin,
    swipeIndexChanged]
  split_ifs <;> rfl

/-- C1 (amended): a transition-end arms a fresh completion timer and
overwrites the stored handle without cancelling the previously pending
timer, so two transition-ends within one delay window leave two timers
live; cancellation happens only inside `completeSwipe` — run by a firing
timer or forced by a drag-start — which clears exactly the one stored
timer.  In particular a drag-start with a pending stored timer does cancel
that timer. -/
theorem transitionComplete_arms_without_cancel (s : SwipeState) (e : DragEvt) :
    (transitionComplete s true).liveTimers = s.liveTimers ++ [s.nextTimerId] ∧
    (transitionComplete s true).completeSwipeTimeout = some s.nextTimerId ∧
    (∀ t : Nat, s.completeSwipeTimeout = some t → s.liveTimers.Nodup →
      t ∉ (completeSwipe s e).1.liveTimers ∧
      (completeSwipe s e).1.completeSwipeTimeout = none) ∧
    (∀ t : Nat, s.hasSwipeables = true → e.vertical = false →
      s.completeSwipeTimeout = some t → s.liveTimers.Nodup →
      t ∉ (dragstart s e).1.liveTimers) := by
  refine ⟨rfl, rfl, ?_, ?_⟩
  · intro t ht hnd
    obtain ⟨h1, h2⟩ := completeSwipe_timers s e t ht
    rw [h1]
    exact ⟨not_mem_erase_self t s.liveTimers hnd, h2⟩
  · intro t hsw hv ht hnd
    rw [dragstart_timers s e t hsw hv ht]
    exact not_mem_erase_self t s.liveTimers hnd

/-- Base swipe state used by the gesture witnesses and counterexamples:
swiping enabled, panel of width 100 shown for row 3 after a rightward
(direction 1, origin left) drag. -/
def sSw : SwipeState :=
  { enableSwipe := true, persistSwipeableItem := false, hasSwipeables := true,
    swipeIndex := some 3, swipeDirection := some 1, persistentItemVisisble := false,
    persistentItemOrigin := some Origin.left, swipeComplete := false, flicked := false,
    liveTimers := [], nextTimerId := 1, completeSwipeTimeout := none,
    showing := true, xPos := -100, panelWidth := 100, transitionSecs := some 0,
    rowNodeFound := true }

/-- A neutral event reused by witnesses. -/
def e0 : DragEvt :=
  { index := none, xDirection := 1, dx := 0, ddx := 0, xVelocity := 0, yVelocity := 0,
    vertical := false }

/-- C1 counterexample: two consecutive transition-ends leave two live
timers — the claim that a previously pending timer is always cancelled
before a new one is armed is false. -/
theorem transitionComplete_two_timers_cex :
    (transitionComplete (transitionComplete sSw true) true).liveTimers = [1, 2] ∧
    ¬ ((transitionComplete (transitionComplete sSw true) true).liveTimers.length ≤ 1) := by
  decide

/-- State with a stored pending timer, for the C1 witness. -/
def sSwT : SwipeState :=
  { sSw with liveTimers := [7], nextTimerId := 8, completeSwipeTimeout := some 7 }

/-- C1 witness: arming appends without cancelling; a forced completion and
a drag-start each cancel the stored timer 7. -/
theorem transitionComplete_arms_without_cancel_witness :
    (transitionComplete sSwT true).liveTimers = [7, 8] ∧
    (7 : Nat) ∉ (completeSwipe sSwT e0).1.liveTimers ∧
    (7 : Nat) ∉ (dragstart sSwT e0).1.liveTimers := by
  obtain ⟨h1, -, h3, h4⟩ := transitionComplete_arms_without_cancel sSwT e0
  exact ⟨h1, (h3 7 rfl (by decide)).1, h4 7 rfl rfl rfl (by decide)⟩

/-- C3 (amended): with swiping enabled, no prior flick, no persistent item
and the swipe-complete flag still clear, a `dragfinish` whose dragged
fraction is 0.21 force-completes the swipe at `fastSwipeSpeed` and sets the
swipe-complete flag — but bubbles no event at all (the declared `onSwipe`
event is never fired anywhere in the controller); at 0.19 the panel backs
out to its hidden position at 0.1s and the swipe-complete flag stays
false. -/
theorem dragfinish_threshold (s : SwipeState) (e : DragEvt)
    (hen : s.enableSwipe = true) (hfl : s.flicked = false)
    (hpv : s.persistentItemVisisble = false) (hsc : s.swipeComplete = false) :
    (calcPercentageDragged s e.dx = 21/100 →
      (dragfinish s e).1.swipeComplete = true ∧ (dragfinish s e).1.xPos = 0 ∧
      (dragfinish s e).1.transitionSecs = some fastSwipeSpeed ∧ (dragfinish s e).2 = []) ∧
    (calcPercentageDragged s e.dx = 19/100 →
      (dragfinish s e).1.swipeComplete = false ∧
      (dragfinish s e).1.xPos =
        (if s.swipeDirection = some 1 then -s.panelWidth else s.panelWidth) ∧
      (dragfinish s e).1.transitionSecs = some (1/10 : Rat) ∧ (dragfinish s e).2 = []) := by
  have g1 : ¬ (s.enableSwipe = false) := by rw [hen]; simp
  have g2 : ¬ (wasFlicked s = true) := by unfold wasFlicked; rw [hfl]; simp
  have g3 : ¬ (s.persistentItemVisisble = true) := by rw [hpv]; simp
  constructor
  · intro hp
    have hgt : calcPercentageDragged s e.dx > percentageDraggedThreshold := by
      rw [hp]
      norm_num [percentageDraggedThreshold]
    have hstep : dragfinish s e =
        (swipeItem (setSwipeComplete s true) 0 (some fastSwipeSpeed), []) := by
      simp only [dragfinish, if_neg g1, if_neg g2, if_neg g3, if_pos hgt, swipe]
    rw [hstep]
    exact ⟨rfl, rfl, rfl, rfl⟩
  · intro hp
    have hle : ¬ calcPercentageDragged s e.dx > percentageDraggedThreshold := by
      rw [hp]
      norm_num [percentageDraggedThreshold]
    have hstep : dragfinish s e = (backOutSwipe s e, []) := by
      simp only [dragfinish, if_neg g1, if_neg g2, if_neg g3, if_neg hle]
    rw [hstep]
    exact ⟨hsc, rfl, rfl, rfl⟩

/-- Event with `dx = 21` against the 100-wide panel (fraction 0.21). -/
def e21 : DragEvt :=
  { index := some 3, xDirection := 1, dx := 21, ddx := 0, xVelocity := 0, yVelocity := 0,
    vertical := false }

/-- Event with `dx = 19` (fraction 0.19). -/
def e19 : DragEvt :=
  { index := some 3, xDirection := 1, dx := 19, ddx := 0, xVelocity := 0, yVelocity := 0,
    vertical := false }

lemma pct21 : calcPercentageDragged sSw e21.dx = 21/100 := by
  show |(21 : Rat) / 100| = 21/100
  rw [abs_of_nonneg (by norm_num)]

lemma pct19 : calcPercentageDragged sSw e19.dx = 19/100 := by
  show |(19 : Rat) / 100| = 19/100
  rw [abs_of_nonneg (by norm_num)]

/-- C3 counterexample: at fraction 0.21 the swipe is force-completed, yet
the handler bubbles no event — in particular no `onSwipe` — refuting the
claim that an `onSwipe` event is emitted. -/
theorem dragfinish_no_onSwipe_cex :
    calcPercentageDragged sSw e21.dx = 21/100 ∧
    (dragfinish sSw e21).1.swipeComplete = true ∧
    (dragfinish sSw e21).1.transitionSecs = some fastSwipeSpeed ∧
    (dragfinish sSw e21).2 = [] ∧
    Eff.swipeEvt ∉ (dragfinish sSw e21).2 := by
  have hgt : calcPercentageDragged sSw e21.dx > percentageDraggedThreshold := by
    rw [pct21]
    norm_num [percentageDraggedThreshold]
  have g1 : ¬ (sSw.enableSwipe = false) := by simp [sSw]
  have g2 : ¬ (wasFlicked sSw = true) := by simp [wasFlicked, sSw]
  have g3 : ¬ (sSw.persistentItemVisisble = true) := by simp [sSw]
  have hstep : dragfinish sSw e21 =
      (swipeItem (setSwipeComplete sSw true) 0 (some fastSwipeSpeed), []) := by
    simp only [dragfinish, if_neg g1, if_neg g2, if_neg g3, if_pos hgt, swipe]
  refine ⟨pct21, ?_, ?_, ?_, ?_⟩ <;> rw [hstep] <;> first | rfl | simp

/-- C3 witness: both threshold outcomes at the concrete 0.21 / 0.19
fractions on the base state. -/
theorem dragfinish_threshold_witness :
    ((dragfinish sSw e21).1.swipeComplete = true ∧ (dragfinish sSw e21).1.xPos = 0) ∧
    ((dragfinish sSw e19).1.swipeComplete = false ∧ (dragfinish sSw e19).1.xPos = -100) := by
  obtain ⟨h21, -⟩ := dragfinish_threshold sSw e21 rfl rfl rfl rfl
  obtain ⟨-, h19⟩ := dragfinish_threshold sSw e19 rfl rfl rfl rfl
  obtain ⟨a1, a2, -, -⟩ := h21 pct21
  obtain ⟨b1, b2, -, -⟩ := h19 pct19
  refine ⟨⟨a1, a2⟩, b1, ?_⟩
  rw [b2, if_pos (show sSw.swipeDirection = some 1 from rfl)]
  rfl


/-- C4 (amended): while a persistent panel is visible and horizontal flick
velocity dominates, the outcome is decided purely by flick direction versus
the panel's origin side — but with the mapping opposite to the claim:
flicking toward the origin side (negative velocity for a left-origin
panel, positive for a right-origin one) slides the panel fully away
(closed, dropping the persistent flag), while flicking away from the
origin side bounces it back to its open position (x = 0, still
persistent). -/
theorem flick_persistent_origin (s : SwipeState) (e : DragEvt)
    (hen : s.enableSwipe = true) (hpv : s.persistentItemVisisble = true)
    (hv : ¬ |e.xVelocity| < |e.yVelocity|) :
    (e.xVelocity > 0 → s.persistentItemOrigin = some Origin.right →
      (flick s e).1.xPos = s.panelWidth ∧ (flick s e).1.persistentItemVisisble = false ∧
      (flick s e).1.persistSwipeableItem = false) ∧
    (e.xVelocity > 0 → s.persistentItemOrigin = some Origin.left →
      (flick s e).1.xPos = 0 ∧ (flick s e).1.persistentItemVisisble = true ∧
      (flick s e).1.persistSwipeableItem = s.persistSwipeableItem) ∧
    (e.xVelocity < 0 → s.persistentItemOrigin = some Origin.left →
      (flick s e).1.xPos = -s.panelWidth ∧ (flick s e).1.persistentItemVisisble = false ∧
      (flick s e).1.persistSwipeableItem = false) ∧
    (e.xVelocity < 0 → s.persistentItemOrigin = some Origin.right →
      (flick s e).1.xPos = 0 ∧ (flick s e).1.persistentItemVisisble = true ∧
      (flick s e).1.persistSwipeableItem = s.persistSwipeableItem) := by
  have g1 : ¬ (s.enableSwipe = false) := by rw [hen]; simp
  have g3 : (setFlicked s true).persistentItemVisisble = true := hpv
  have hflick : flick s e = (flickPersistentItem (setFlicked s true) e, []) := by
    simp only [flick, if_neg g1, if_neg hv, if_pos g3]
  refine ⟨?_, ?_, ?_, ?_⟩
  · intro hxv hor
    have hno : ¬ ((setFlicked s true).persistentItemOrigin = some Origin.left) := by
      show ¬ (s.persistentItemOrigin = some Origin.left)
      rw [hor]
      simp
    have hstep : (flick s e).1 = slideAwayItem (setFlicked s true) := by
      rw [hflick]
      show flickPersistentItem (setFlicked s true) e = _
      simp only [flickPersistentItem, if_pos hxv, if_neg hno]
    obtain ⟨ha, hb, hc, -⟩ := slideAwayItem_spec (setFlicked s true)
    rw [hstep]
    refine ⟨?_, ha, hb⟩
    rw [hc, show (setFlicked s true).persistentItemOrigin = some Origin.right from hor,
      if_pos rfl]
    rfl
  · intro hxv hor
    have hyes : (setFlicked s true).persistentItemOrigin = some Origin.left := hor
    have hstep : (flick s e).1 = bounceItem (setFlicked s true) := by
      rw [hflick]
      show flickPersistentItem (setFlicked s true) e = _
      simp only [flickPersistentItem, if_pos hxv, if_pos hyes]
    obtain ⟨ha, hb, hc⟩ := bounceItem_spec (setFlicked s true)
    rw [hstep]
    refine ⟨ha, ?_, hc⟩
    rw [hb]
    exact hpv
  · intro hxv hor
    have hng : ¬ (e.xVelocity > 0) := by
      intro hgt
      exact absurd (lt_trans hxv hgt) (lt_irrefl _)
    have hno : ¬ ((setFlicked s true).persistentItemOrigin = some Origin.right) := by
      show ¬ (s.persistentItemOrigin = some Origin.right)
      rw [hor]
      simp
    have hstep : (flick s e).1 = slideAwayItem (setFlicked s true) := by
      rw [hflick]
      show flickPersistentItem (setFlicked s true) e = _
      simp only [flickPersistentItem, if_neg hng, if_pos hxv, if_neg hno]
    obtain ⟨ha, hb, hc, -⟩ := slideAwayItem_spec (setFlicked s true)
    rw [hstep]
    refine ⟨?_, ha, hb⟩
    rw [hc, show (setFlicked s true).persistentItemOrigin = some Origin.left from hor,
      if_neg (by simp)]
    rfl
  · intro hxv hor
    have hng : ¬ (e.xVelocity > 0) := by
      intro hgt
      exact absurd (lt_trans hxv hgt) (lt_irrefl _)
    have hyes : (setFlicked s true).persistentItemOrigin = some Origin.right := hor
    have hstep : (flick s e).1 = bounceItem (setFlicked s true) := by
      rw [hflick]
      show flickPersistentItem (setFlicked s true) e = _
      simp only [flickPersistentItem, if_neg hng, if_pos hxv, if_pos hyes]
    obtain ⟨ha, hb, hc⟩ := bounceItem_spec (setFlicked s true)
    rw [hstep]
    refine ⟨ha, ?_, hc⟩
    rw [hb]
    exact hpv

/-- Persistent left-origin panel dragged partway back (x = -30), for the
C4 scenario. -/
def sC4 : SwipeState := { sSw with persistentItemVisisble := true, xPos := -30 }

/-- Leftward flick (toward the left origin side). -/
def eC4 : DragEvt :=
  { index := some 3, xDirection := 1, dx := 0, ddx := 0, xVelocity := -5, yVelocity := 1,
    vertical := false }

/-- Rightward flick (away from the left origin side). -/
def eC4b : DragEvt :=
  { index := some 3, xDirection := 1, dx := 0, ddx := 0, xVelocity := 5, yVelocity := 1,
    vertical := false }

/-- C4 counterexample: flicking a left-origin persistent panel toward its
origin side (negative velocity) slides it away — the claim predicts a
bounce back to open (x = 0, still persistent), but the code closes it
(x = -100, persistent flag dropped). -/
theorem flick_persistent_origin_cex :
    sC4.persistentItemOrigin = some Origin.left ∧ eC4.xVelocity < 0 ∧
    (flick sC4 eC4).1.persistentItemVisisble = false ∧
    (flick sC4 eC4).1.xPos = -100 ∧
    ¬ ((flick sC4 eC4).1.xPos = 0 ∧ (flick sC4 eC4).1.persistentItemVisisble = true) := by
  have g1 : ¬ (sC4.enableSwipe = false) := by simp [sC4, sSw]
  have hv : ¬ |eC4.xVelocity| < |eC4.yVelocity| := by
    show ¬ |(-5 : Rat)| < |(1 : Rat)|
    rw [abs_of_nonpos (by norm_num), abs_of_nonneg (by norm_num)]
    norm_num
  have g3 : (setFlicked sC4 true).persistentItemVisisble = true := rfl
  have hxv : eC4.xVelocity < 0 := by
    show (-5 : Rat) < 0
    norm_num
  have hng : ¬ (eC4.xVelocity > 0) := by
    show ¬ ((-5 : Rat) > 0)
    norm_num
  have hno : ¬ ((setFlicked sC4 true).persistentItemOrigin = some Origin.right) := by
    show ¬ ((some Origin.left : Option Origin) = some Origin.right)
    simp
  have hstep : (flick sC4 eC4).1 = slideAwayItem (setFlicked sC4 true) := by
    simp only [flick, if_neg g1, if_neg hv, if_pos g3, flickPersistentItem,
      if_neg hng, if_pos hxv, if_neg hno]
  refine ⟨rfl, hxv, ?_, ?_, ?_⟩
  · rw [hstep]
    rfl
  · rw [hstep]
    show (if (some Origin.left : Option Origin) = some Origin.right
      then (100 : Rat) else -100) = -100
    rw [if_neg (by simp)]
  · rintro ⟨-, hp⟩
    rw [hstep, (slideAwayItem_spec (setFlicked sC4 true)).1] at hp
    exact Bool.false_ne_true hp

/-- C4 witness: flicking the same panel away from its origin side bounces
it back to open and keeps it persistent. -/
theorem flick_persistent_origin_witness :
    (flick sC4 eC4b).1.xPos = 0 ∧ (flick sC4 eC4b).1.persistentItemVisisble = true := by
  obtain ⟨-, h2, -, -⟩ := flick_persistent_origin sC4 eC4b rfl rfl
    (by show ¬ |(5 : Rat)| < |(1 : Rat)|
        rw [abs_of_nonneg (by norm_num), abs_of_nonneg (by norm_num)]
        norm_num)
  obtain ⟨ha, hb, -⟩ := h2 (by show (5 : Rat) > 0; norm_num) rfl
  exact ⟨ha, hb⟩

/-- C5 (amended): on `dragfinish` over a visible persistent panel (no
flick in the gesture), the panel slides away exactly when the sign of the
net horizontal delta points toward the panel's origin side (`dx > 0` for a
right-origin panel, `dx < 0` for a left-origin one) AND the dragged
fraction exceeds 0.2; in every other case — below threshold, opposite
sign, or `dx = 0` — it bounces back to its open position and stays
persistent. -/
theorem dragfinish_persistent_origin (s : SwipeState) (e : DragEvt) (o : Origin)
    (hen : s.enableSwipe = true) (hfl : s.flicked = false)
    (hpv : s.persistentItemVisisble = true) (ho : s.persistentItemOrigin = some o) :
    ((if e.dx > 0 then some Origin.right else if e.dx < 0 then some Origin.left else none) =
        some o ∧ calcPercentageDragged s e.dx > (2/10 : Rat) →
      (dragfinish s e).1.persistentItemVisisble = false ∧
      (dragfinish s e).1.persistSwipeableItem = false ∧
      (dragfinish s e).1.xPos = (if o = Origin.right then s.panelWidth else -s.panelWidth)) ∧
    (¬ ((if e.dx > 0 then some Origin.right else if e.dx < 0 then some Origin.left else none) =
        some o ∧ calcPercentageDragged s e.dx > (2/10 : Rat)) →
      (dragfinish s e).1.persistentItemVisisble = true ∧
      (dragfinish s e).1.xPos = 0 ∧
      (dragfinish s e).1.persistSwipeableItem = s.persistSwipeableItem) := by
  have g1 : ¬ (s.enableSwipe = false) := by rw [hen]; simp
  have g2 : ¬ (wasFlicked s = true) := by unfold wasFlicked; rw [hfl]; simp
  have hstep0 : (dragfinish s e).1 = dragFinishPersistentItem s e := by
    simp only [dragfinish, if_neg g1, if_neg g2, if_pos hpv]
  constructor
  · rintro ⟨hdir, hpct⟩
    have heq : s.persistentItemOrigin =
        (if e.dx > 0 then some Origin.right else if e.dx < 0 then some Origin.left
          else none) := by
      rw [ho, ← hdir]
    have hstep : dragFinishPersistentItem s e = slideAwayItem s := by
      simp only [dragFinishPersistentItem, if_pos heq, if_pos hpct]
    rw [hstep0, hstep]
    obtain ⟨ha, hb, hc, -⟩ := slideAwayItem_spec s
    refine ⟨ha, hb, ?_⟩
    rw [hc, ho]
    cases o <;> simp
  · intro hno
    have hstep : dragFinishPersistentItem s e = bounceItem s := by
      by_cases h1 : s.persistentItemOrigin =
          (if e.dx > 0 then some Origin.right else if e.dx < 0 then some Origin.left else none)
      · have hA : (if e.dx > 0 then some Origin.right else if e.dx < 0 then some Origin.left
            else none) = some o := by rw [← h1, ho]
        have hB : ¬ calcPercentageDragged s e.dx > (2/10 : Rat) := fun hb2 => hno ⟨hA, hb2⟩
        simp only [dragFinishPersistentItem, if_pos h1, if_neg hB]
      · simp only [dragFinishPersistentItem, if_neg h1]
    rw [hstep0, hstep]
    obtain ⟨ha, hb, hc⟩ := bounceItem_spec s
    refine ⟨?_, ha, hc⟩
    rw [hb]
    exact hpv

/-- Visible persistent right-origin panel, open at x = 30 of drag, for the
C5 scenario. -/
def sC5 : SwipeState :=
  { sSw with
    persistentItemVisisble := true,
    persistentItemOrigin := some Origin.right,
    xPos := 30 }

/-- Drag-finish with net delta +30 (toward the right origin, fraction 0.3). -/
def eC5 : DragEvt :=
  { index := some 3, xDirection := 1, dx := 30, ddx := 0, xVelocity := 0, yVelocity := 0,
    vertical := false }

/-- Drag-finish with net delta -30 (away from the right origin). -/
def eC5w : DragEvt :=
  { index := some 3, xDirection := 1, dx := -30, ddx := 0, xVelocity := 0, yVelocity := 0,
    vertical := false }

/-- C5 counterexample: a right-origin persistent panel finished with
`dx = +30` (sign matching the origin side itself, not the origin-opposite
direction, fraction 0.3 > 0.2) slides away — the claim predicts a bounce
back to open. -/
theorem dragfinish_persistent_origin_cex :
    sC5.persistentItemOrigin = some Origin.right ∧ eC5.dx > 0 ∧
    calcPercentageDragged sC5 eC5.dx > (2/10 : Rat) ∧
    (dragfinish sC5 eC5).1.persistentItemVisisble = false ∧
    (dragfinish sC5 eC5).1.xPos = 100 ∧
    ¬ ((dragfinish sC5 eC5).1.xPos = 0 ∧
       (dragfinish sC5 eC5).1.persistentItemVisisble = true) := by
  have g1 : ¬ (sC5.enableSwipe = false) := by simp [sC5, sSw]
  have g2 : ¬ (wasFlicked sC5 = true) := by simp [wasFlicked, sC5, sSw]
  have hdx : eC5.dx > 0 := by
    show (30 : Rat) > 0
    norm_num
  have hpct : calcPercentageDragged sC5 eC5.dx > (2/10 : Rat) := by
    show |(30 : Rat) / 100| > 2/10
    rw [abs_of_nonneg (by norm_num)]
    norm_num
  have heq : sC5.persistentItemOrigin =
      (if eC5.dx > 0 then some Origin.right else if eC5.dx < 0 then some Origin.left
        else none) := by
    rw [if_pos hdx]
    rfl
  have hstep : (dragfinish sC5 eC5).1 = slideAwayItem sC5 := by
    simp only [dragfinish, if_neg g1, if_neg g2,
      if_pos (show sC5.persistentItemVisisble = true from rfl),
      dragFinishPersistentItem, if_pos heq, if_pos hpct]
  refine ⟨rfl, hdx, hpct, ?_, ?_, ?_⟩
  · rw [hstep]
    rfl
  · rw [hstep]
    show (if (some Origin.right : Option Origin) = some Origin.right
      then (100 : Rat) else -100) = 100
    rw [if_pos rfl]
  · rintro ⟨-, hp⟩
    rw [hstep, (slideAwayItem_spec sC5).1] at hp
    exact Bool.false_ne_true hp

/-- C5 witness: the same panel finished with `dx = -30` (sign away from
the origin side) bounces back to open and stays persistent. -/
theorem dragfinish_persistent_origin_witness :
    (dragfinish sC5 eC5w).1.persistentItemVisisble = true ∧
    (dragfinish sC5 eC5w).1.xPos = 0 := by
  obtain ⟨-, h2⟩ := dragfinish_persistent_origin sC5 eC5w Origin.right rfl rfl rfl rfl
  obtain ⟨ha, hb, -⟩ := h2 (by
    rintro ⟨hA, -⟩
    rw [if_neg (show ¬ (eC5w.dx > 0) by show ¬ ((-30 : Rat) > 0); norm_num),
      if_pos (show eC5w.dx < 0 by show (-30 : Rat) < 0; norm_num)] at hA
    simp at hA)
  exact ⟨ha, hb⟩

/-- C10: dismissing a persistent panel — by `slideAwayItem` (which slides
it fully off to its hidden-side position and drops the persistent flag) or
by `clearSwipeables` (which hides it and drops the flag) — also sets the
published `persistSwipeableItem` option to `false`; consequently any
subsequently completed swipe runs `completeSwipe` in its non-persist
branch, hiding the panel instead of entering the persistent state. -/
theorem dismiss_disables_persist (s : SwipeState) (e : DragEvt) :
    ((slideAwayItem s).persistentItemVisisble = false ∧
      (slideAwayItem s).persistSwipeableItem = false ∧
      (slideAwayItem s).xPos =
        (if s.persistentItemOrigin = some Origin.right then s.panelWidth
          else -s.panelWidth)) ∧
    ((clearSwipeables s).showing = false ∧
      (clearSwipeables s).persistentItemVisisble = false ∧
      (clearSwipeables s).persistSwipeableItem = false) ∧
    (s.persistSwipeableItem = false →
      (completeSwipe s e).1.showing = false ∧
      (completeSwipe s e).1.persistentItemVisisble = s.persistentItemVisisble) := by
  refine ⟨⟨rfl, rfl, rfl⟩, ⟨rfl, rfl, rfl⟩, ?_⟩
  intro hps
  cases ht : s.completeSwipeTimeout with
  | none =>
    simp only [completeSwipe, ht, resetSwipeableTransitionTime, setSwipeDirection]
    rw [if_pos hps]
    split_ifs <;> exact ⟨rfl, rfl⟩
  | some t =>
    simp only [completeSwipe, ht, resetSwipeableTransitionTime, setSwipeDirection]
    rw [if_pos hps]
    split_ifs <;> exact ⟨rfl, rfl⟩

/-- Persistent-candidate state with a completed swipe, for the C10 witness. -/
def sC10 : SwipeState :=
  { sSw with completeSwipeTimeout := some 5, liveTimers := [5], swipeComplete := true }

/-- C10 witness: both dismissal paths clear the published option, and a
completion with the option cleared hides the panel. -/
theorem dismiss_disables_persist_witness :
    (slideAwayItem sC10).persistSwipeableItem = false ∧
    (clearSwipeables sC10).persistSwipeableItem = false ∧
    (completeSwipe sC10 e0).1.showing = false := by
  obtain ⟨h1, h2, h3⟩ := dismiss_disables_persist sC10 e0
  exact ⟨h1.2.1, h2.2.2, (h3 rfl).1⟩

end EnyoList
